import Mathlib

/-!
Shallow embedding of the payroll/vacation policy engine of the
PatronesGrupal repository (`RefEmployees.py` / `Empleados.py` for the
engine, `main.py` for the factory and orchestrator, `Menu.py` for the
second orchestrator draft).

Conventions of the embedding:
* Python mutable objects become explicit state passing on an `Employee`
  structure; every operation returns the updated employee.
* `datetime.now()` timestamps become an explicit `now : Nat` parameter
  (the Python format `%Y-%m-%d %H:%M:%S` orders lexicographically the
  same way the underlying instants order, so a `Nat` timestamp is a
  faithful carrier of the ordering used by `show_transactions`).
* Python numbers (floats for money, ints for days/hours) become `ℚ` and
  `Int`; the arithmetic in the claims is exact at these scales.
* A Python `raise` becomes the `.error` branch of an `Except`; the error
  value carries the employee state as it stood at the moment of the
  raise, so that "no partial mutation before failing" is a provable
  property of the translation rather than an artifact of it.
* The textual content of log descriptions is carried verbatim where the
  source uses a constant string; the one f-string (the salaried bonus
  percentage) is abstracted to a constant tag, as no property depends on
  the rendered percentage.
-/

namespace PatronesGrupal

/-- A freelancer project: a dict `{name, amount}` in the source. -/
structure Project where
  name : String
  amount : ℚ
deriving Repr, DecidableEq

/-- One entry of an employee's transaction log, as built by
`Employee.log_transaction` in `RefEmployees.py`. -/
structure Transaction where
  date : Nat
  type_op : String
  amount : ℚ
  description : String
deriving Repr, DecidableEq

/-- The employment-type-specific attributes held by the four `Employee`
subclasses (`SalariedEmployee`, `HourlyEmployee`, `Freelancer`, `Intern`). -/
inductive EmpData where
  | salaried (salary : ℚ)
  | hourly (rate : ℚ) (hours : Int)
  | freelancer (projects : List Project)
  | intern
deriving Repr, DecidableEq

/-- The five vacation policies of the design (four classes in
`RefEmployees.py` plus the `FreelancerVacationPolicy` that `main.py`
imports and routes to). -/
inductive VacPolicy where
  | managerP
  | vpP
  | internP
  | freelancerP
  | defaultP
deriving Repr, DecidableEq

/-- The four payment policies; `salariedPay` and `hourlyPay` carry the
configuration parameters injected by `load_payment_policies_from_json`. -/
inductive PayPolicy where
  | salariedPay (bonus_percent : ℚ)
  | hourlyPay (bonus_threshold : Int) (bonus_amount : ℚ)
  | freelancerPay
  | internPay
deriving Repr, DecidableEq

/-- State of one `Employee` object: the fields set by `Employee.__init__`
plus the subclass-specific attributes. -/
structure Employee where
  name : String
  role : String
  vacation_days : Int
  vacation_policy : VacPolicy
  payment_policy : PayPolicy
  transactions : List Transaction
  data : EmpData
deriving Repr, DecidableEq

/-- The denial taxonomy: each constructor corresponds to one of the
`raise Exception(...)` sites of the vacation policies. -/
inductive VacError where
  | vacationNotPermitted
  | payoutCapExceeded
  | perRequestCapExceeded
  | insufficientBalance
deriving Repr, DecidableEq

/-- `Employee.log_transaction(type_op, amount, description)`: appends one
record stamped with the current time to `self.transactions`. -/
def log_transaction (e : Employee) (now : Nat) (type_op : String)
    (amount : ℚ) (description : String) : Employee :=
  { e with transactions :=
      e.transactions ++ [{ date := now, type_op := type_op,
                           amount := amount, description := description }] }

/-- Modelled from the spec: `FreelancerVacationPolicy` is imported by
`main.py` and routed to by `EmployeeFactory._get_vacation_policy`, but its
class body exists nowhere in the source. The spec says freelancers are
always denied ("not eligible for vacation or payout"). -/
def freelancerVacationRequest (e : Employee) :
    Except (VacError × Employee) Employee :=
  .error (.vacationNotPermitted, e)

/-- `request_vacation(employee, days, payout)` of each `VacationPolicy`
class in `RefEmployees.py`, dispatched on the policy tag. On success the
updated employee is returned; on a raise, the error carries the employee
state at the raise site. -/
def requestVacation (p : VacPolicy) (e : Employee) (days : Int)
    (payout : Bool) (now : Nat) : Except (VacError × Employee) Employee :=
  match p with
  | .internP => .error (.vacationNotPermitted, e)
  | .managerP =>
      if payout = true ∧ 10 < days then .error (.payoutCapExceeded, e)
      else if e.vacation_days < days then .error (.insufficientBalance, e)
      else .ok (log_transaction { e with vacation_days := e.vacation_days - days }
                  now "vacation" (days : ℚ) "Manager vacation/payout")
  | .vpP =>
      if 5 < days then .error (.perRequestCapExceeded, e)
      else .ok (log_transaction e now "vacation" (days : ℚ) "VP vacation/payout")
  | .freelancerP => freelancerVacationRequest e
  | .defaultP =>
      if e.vacation_days < days then .error (.insufficientBalance, e)
      else .ok (log_transaction { e with vacation_days := e.vacation_days - days }
                  now "vacation" (days : ℚ) "Standard vacation/payout")

/-- `calculate_payment(employee)` of each `PaymentPolicy` class.
`none` models the `AttributeError` a policy would raise when handed an
employee lacking the attribute it reads (a mismatched, ill-formed pairing);
within its own employment type no policy raises. -/
def calculatePayment (p : PayPolicy) (e : Employee) (now : Nat) :
    Option (ℚ × Employee) :=
  match p with
  | .salariedPay bonus_percent =>
      match e.data with
      | .salaried salary =>
          let bonus := salary * bonus_percent
          let total := salary + bonus
          some (total, log_transaction e now "payment" total "Salaried + bonus")
      | _ => none
  | .hourlyPay bonus_threshold bonus_amount =>
      match e.data with
      | .hourly rate hours =>
          let base := rate * (hours : ℚ)
          let bonus := if bonus_threshold < hours then bonus_amount else 0
          let total := base + bonus
          some (total, log_transaction e now "payment" total
                  "Hourly + bonus if > threshold")
      | _ => none
  | .freelancerPay =>
      match e.data with
      | .freelancer projects =>
          let total := (projects.map Project.amount).sum
          some (total, log_transaction e now "payment" total
                  "Freelancer project payout")
      | _ => none
  | .internPay =>
      some (0, log_transaction e now "payment" 0 "Interns not paid")

/-- Modelled from the spec: `can_request_vacation` is called by
`EmployeeManager.request_vacation` in `main.py` but defined nowhere in the
source. The spec says it returns true for salaried/hourly employees and
false for interns and freelancers. -/
def can_request_vacation (e : Employee) : Bool :=
  match e.data with
  | .salaried _ => true
  | .hourly _ _ => true
  | .freelancer _ => false
  | .intern => false

/-- `EmployeeFactory._get_vacation_policy(role)` in `main.py`: a dict
lookup with `DefaultVacationPolicy` as the `get` fallback. -/
def getVacationPolicy (role : String) : VacPolicy :=
  if role = "manager" then .managerP
  else if role = "vice_president" then .vpP
  else if role = "intern" then .internP
  else if role = "freelancer" then .freelancerP
  else .defaultP

/-- The dict built by `load_payment_policies_from_json`: one payment
policy singleton per employment type. -/
structure PayPolicies where
  salaried : PayPolicy
  hourly : PayPolicy
  freelancer : PayPolicy
  intern : PayPolicy
deriving Repr, DecidableEq

/-- `Employee.__init__` plus a subclass constructor: every employee starts
with `vacation_days = 25` and an empty transaction log. -/
def mkEmployee (name role : String) (vp : VacPolicy) (pp : PayPolicy)
    (d : EmpData) : Employee :=
  { name := name, role := role, vacation_days := 25, vacation_policy := vp,
    payment_policy := pp, transactions := [], data := d }

/-- `EmployeeFactory.create_employee(name, role, emp_type)` in `main.py`,
with the interactively read type-specific inputs passed as parameters.
The `freelancer` branch constructs `Freelancer(name, projects,
DefaultVacationPolicy(), ...)`, whose constructor hardcodes the role
string "freelancer"; the `intern` branch likewise hardcodes "intern". -/
def createEmployee (ps : PayPolicies) (name role emp_type : String)
    (salary : ℚ) (rate : ℚ) (hours : Int) (projects : List Project) :
    Except String Employee :=
  if emp_type = "salaried" then
    .ok (mkEmployee name role (getVacationPolicy role) ps.salaried
          (.salaried salary))
  else if emp_type = "hourly" then
    .ok (mkEmployee name role (getVacationPolicy role) ps.hourly
          (.hourly rate hours))
  else if emp_type = "freelancer" then
    .ok (mkEmployee name "freelancer" .defaultP ps.freelancer
          (.freelancer projects))
  else if emp_type = "intern" then
    .ok (mkEmployee name "intern" .internP ps.intern .intern)
  else .error "Tipo de empleado no válido."

/-- `Employee.show_transactions`: `sorted(self.transactions, key=lambda
x: x["date"], reverse=True)` — a stable sort, descending on the date key,
that leaves `self.transactions` untouched. -/
def render (ts : List Transaction) : List Transaction :=
  ts.mergeSort (fun a b => decide (b.date ≤ a.date))

/-- One orchestrator-level `request_vacation` call where the surrounding
`try/except` of the menu catches a denial and continues: on success the
updated employee is kept, on a denial the employee as the raise left it. -/
def applyRequest (p : VacPolicy) (e : Employee) (r : Int × Bool × Nat) :
    Employee :=
  match requestVacation p e r.1 r.2.1 r.2.2 with
  | .ok e2 => e2
  | .error (_, e2) => e2

/-- One operation of the operation interface: a payment run or a vacation
request, each carrying its timestamp. -/
inductive Op where
  | pay (now : Nat)
  | vac (days : Int) (payout : Bool) (now : Nat)
deriving Repr, DecidableEq

/-- Runs one operation through the employee's bound policies; `some` is a
successful operation, `none` a denial/raise. -/
def runOp (e : Employee) (op : Op) : Option Employee :=
  match op with
  | .pay now => (calculatePayment e.payment_policy e now).map Prod.snd
  | .vac days payout now =>
      match requestVacation e.vacation_policy e days payout now with
      | .ok e2 => some e2
      | .error _ => none

/-- Runs a sequence of operations, requiring every one to succeed. -/
def runOps (e : Employee) (ops : List Op) : Option Employee :=
  match ops with
  | [] => some e
  | op :: rest =>
      match runOp e op with
      | some e2 => runOps e2 rest
      | none => none

/-! ### Concrete sample data (used by the witness theorems) -/

/-- The payment-policy dict at the spec's default configuration. -/
def egPolicies : PayPolicies :=
  { salaried := .salariedPay (1/10), hourly := .hourlyPay 160 100,
    freelancer := .freelancerPay, intern := .internPay }

def egSal : Employee :=
  mkEmployee "alice" "manager" .managerP (.salariedPay (1/10)) (.salaried 5000)

def egHour : Employee :=
  mkEmployee "bob" "developer" .defaultP (.hourlyPay 160 100) (.hourly 30 170)

def egHourB : Employee :=
  mkEmployee "beto" "developer" .defaultP (.hourlyPay 160 100) (.hourly 30 160)

def egFreeL : Employee :=
  mkEmployee "diana" "freelancer" .defaultP .freelancerPay
    (.freelancer [{ name := "Website", amount := 1200 },
                  { name := "App", amount := 1800 }])

def egIntern : Employee :=
  mkEmployee "charlie" "intern" .internP .internPay .intern

def egVP : Employee :=
  mkEmployee "vicky" "vice_president" .vpP (.salariedPay (1/10)) (.salaried 4000)

/-! ### Theorems -/

/-- C6: for every vacation policy and every employee, a denied
`request_vacation` leaves the employee's state entirely unchanged — the
state carried out of the raise site equals the state at entry, so
`vacation_days` keeps its prior value and no transaction record is
appended (validation precedes mutation). -/
theorem denial_preserves_state (p : VacPolicy) (e : Employee) (days : Int)
    (payout : Bool) (now : Nat) (err : VacError) (e2 : Employee)
    (h : requestVacation p e days payout now = .error (err, e2)) : e2 = e := by
  cases p with
  | internP =>
    simp only [requestVacation, Except.error.injEq, Prod.mk.injEq] at h
    exact h.2.symm
  | freelancerP =>
    simp only [requestVacation, freelancerVacationRequest, Except.error.injEq,
      Prod.mk.injEq] at h
    exact h.2.symm
  | managerP =>
    unfold requestVacation at h
    split_ifs at h <;> simp_all
  | vpP =>
    unfold requestVacation at h
    split_ifs at h <;> simp_all
  | defaultP =>
    unfold requestVacation at h
    split_ifs at h <;> simp_all

theorem denial_preserves_state_witness :
    requestVacation .internP egIntern 1 false 0 =
      .error (.vacationNotPermitted, egIntern) ∧ egIntern = egIntern :=
  ⟨rfl,
   denial_preserves_state .internP egIntern 1 false 0 .vacationNotPermitted
     egIntern rfl⟩

/-- C2: every factory-built employee whose role is `vice_president`
carries the VP vacation policy, and under that policy a request of more
than 5 days is denied with the per-request cap regardless of `payout`,
while a request of at most 5 days succeeds, appends exactly one vacation
record, and leaves `vacation_days` unchanged (no deduction). -/
theorem vp_vacation_spec :
    (∀ ps n r t sal ra hrs prj e,
      createEmployee ps n r t sal ra hrs prj = .ok e →
      e.role = "vice_president" → e.vacation_policy = .vpP) ∧
    (∀ e days payout now,
      (5 < days →
        requestVacation .vpP e days payout now =
          .error (.perRequestCapExceeded, e)) ∧
      (days ≤ 5 →
        requestVacation .vpP e days payout now =
          .ok { e with transactions := e.transactions ++
            [{ date := now, type_op := "vacation", amount := (days : ℚ),
               description := "VP vacation/payout" }] })) := by
  constructor
  · intro ps n r t sal ra hrs prj e hc hr
    unfold createEmployee at hc
    split_ifs at hc <;>
      simp only [Except.ok.injEq] at hc <;>
      subst hc <;>
      simp_all [mkEmployee, getVacationPolicy]
  · intro e days payout now
    constructor
    · intro hd
      simp [requestVacation, hd]
    · intro hd
      simp [requestVacation, log_transaction, Int.not_lt.mpr hd]

theorem vp_vacation_spec_witness :
    egVP.vacation_policy = .vpP ∧
    requestVacation .vpP egVP 6 false 0 =
      .error (.perRequestCapExceeded, egVP) ∧
    requestVacation .vpP egVP 5 false 0 =
      .ok { egVP with transactions := egVP.transactions ++
        [{ date := 0, type_op := "vacation", amount := ((5 : Int) : ℚ),
           description := "VP vacation/payout" }] } :=
  ⟨vp_vacation_spec.1 egPolicies "vicky" "vice_president" "salaried" 4000 0 0 []
      egVP rfl rfl,
   (vp_vacation_spec.2 egVP 6 false 0).1 (by decide),
   (vp_vacation_spec.2 egVP 5 false 0).2 (by decide)⟩

/-- C4: every factory-built employee whose role is `manager` carries the
manager vacation policy; under it the payout cap (`payout ∧ days > 10`) is
checked first and denies leaving state untouched, then the balance check
(`days > vacation_days`) denies, and otherwise the request succeeds,
deducts exactly `days` from the balance and appends exactly one vacation
record. -/
theorem manager_vacation_spec :
    (∀ ps n r t sal ra hrs prj e,
      createEmployee ps n r t sal ra hrs prj = .ok e →
      e.role = "manager" → e.vacation_policy = .managerP) ∧
    (∀ e days payout now,
      (payout = true ∧ 10 < days →
        requestVacation .managerP e days payout now =
          .error (.payoutCapExceeded, e)) ∧
      (¬(payout = true ∧ 10 < days) → e.vacation_days < days →
        requestVacation .managerP e days payout now =
          .error (.insufficientBalance, e)) ∧
      (¬(payout = true ∧ 10 < days) → days ≤ e.vacation_days →
        requestVacation .managerP e days payout now =
          .ok { e with
                vacation_days := e.vacation_days - days
                transactions := e.transactions ++
                  [{ date := now, type_op := "vacation", amount := (days : ℚ),
                     description := "Manager vacation/payout" }] })) := by
  constructor
  · intro ps n r t sal ra hrs prj e hc hr
    unfold createEmployee at hc
    split_ifs at hc <;>
      simp only [Except.ok.injEq] at hc <;>
      subst hc <;>
      simp_all [mkEmployee, getVacationPolicy]
  · intro e days payout now
    refine ⟨fun hcap => ?_, fun hcap hbal => ?_, fun hcap hbal => ?_⟩
    · simp [requestVacation, hcap]
    · simp [requestVacation, hcap, hbal]
    · simp [requestVacation, log_transaction, hcap, Int.not_lt.mpr hbal]

theorem manager_vacation_spec_witness :
    egSal.vacation_policy = .managerP ∧
    requestVacation .managerP egSal 11 true 0 =
      .error (.payoutCapExceeded, egSal) ∧
    requestVacation .managerP egSal 30 false 0 =
      .error (.insufficientBalance, egSal) ∧
    requestVacation .managerP egSal 10 true 0 =
      .ok { egSal with
            vacation_days := egSal.vacation_days - 10
            transactions := egSal.transactions ++
              [{ date := 0, type_op := "vacation", amount := ((10 : Int) : ℚ),
                 description := "Manager vacation/payout" }] } :=
  ⟨manager_vacation_spec.1 egPolicies "alice" "manager" "salaried" 5000 0 0 []
      egSal rfl rfl,
   (manager_vacation_spec.2 egSal 11 true 0).1 (by decide),
   (manager_vacation_spec.2 egSal 30 false 0).2.1 (by decide) (by decide),
   (manager_vacation_spec.2 egSal 10 true 0).2.2 (by decide) (by decide)⟩

/-- C1 (failing evaluation): both factories construct every `Freelancer`
with `DefaultVacationPolicy` — the `FreelancerVacationPolicy` that
`main.py` imports and routes to does not exist — so a freelancer's
vacation request within the balance succeeds, deducts the days and logs a
record instead of the `VacationNotPermitted` denial the claim requires.
The intern half of the claim does hold. -/
theorem freelancer_vacation_bug :
    createEmployee egPolicies "diana" "freelancer" "freelancer" 0 0 0
      [{ name := "Website", amount := 1200 },
       { name := "App", amount := 1800 }] = .ok egFreeL ∧
    egFreeL.vacation_policy = .defaultP ∧
    requestVacation egFreeL.vacation_policy egFreeL 3 false 0 =
      .ok { egFreeL with
            vacation_days := 22
            transactions := [{ date := 0, type_op := "vacation",
                               amount := ((3 : Int) : ℚ),
                               description := "Standard vacation/payout" }] } ∧
    requestVacation .internP egIntern 2 true 0 =
      .error (.vacationNotPermitted, egIntern) :=
  ⟨rfl, rfl, rfl, rfl⟩

/-- C9: the factory either returns a constructed employee (with both a
vacation and a payment policy bound, by construction) for each of the
four recognized employment types, or fails with the invalid-employment-
type condition exactly when the employment type is unrecognized, in which
case no employee is constructed. The source recognizes every role string
(unknown roles resolve to the default vacation policy), so no invalid-role
failure exists. -/
theorem factory_total_spec (ps : PayPolicies) (n r t : String) (sal ra : ℚ)
    (hrs : Int) (prj : List Project) :
    (∃ e, createEmployee ps n r t sal ra hrs prj = .ok e ∧
       (t = "salaried" ∨ t = "hourly" ∨ t = "freelancer" ∨ t = "intern")) ∨
    (createEmployee ps n r t sal ra hrs prj =
        .error "Tipo de empleado no válido." ∧
      t ≠ "salaried" ∧ t ≠ "hourly" ∧ t ≠ "freelancer" ∧ t ≠ "intern") := by
  unfold createEmployee
  split_ifs with h1 h2 h3 h4
  · exact Or.inl ⟨_, rfl, Or.inl h1⟩
  · exact Or.inl ⟨_, rfl, Or.inr (Or.inl h2)⟩
  · exact Or.inl ⟨_, rfl, Or.inr (Or.inr (Or.inl h3))⟩
  · exact Or.inl ⟨_, rfl, Or.inr (Or.inr (Or.inr h4))⟩
  · exact Or.inr ⟨rfl, h1, h2, h3, h4⟩

theorem factory_total_spec_witness :
    (∃ e, createEmployee egPolicies "nina" "boss" "parttime" 0 0 0 [] = .ok e ∧
       ("parttime" = "salaried" ∨ "parttime" = "hourly" ∨
        "parttime" = "freelancer" ∨ "parttime" = "intern")) ∨
    (createEmployee egPolicies "nina" "boss" "parttime" 0 0 0 [] =
        .error "Tipo de empleado no válido." ∧
      "parttime" ≠ "salaried" ∧ "parttime" ≠ "hourly" ∧
      "parttime" ≠ "freelancer" ∧ "parttime" ≠ "intern") :=
  factory_total_spec egPolicies "nina" "boss" "parttime" 0 0 0 []

/-- C3: every factory-built employee answers `can_request_vacation` with
true exactly when its employment type is salaried or hourly, hence false
for interns and freelancers. -/
theorem can_request_vacation_spec (ps : PayPolicies) (n r t : String)
    (sal ra : ℚ) (hrs : Int) (prj : List Project) (e : Employee)
    (hc : createEmployee ps n r t sal ra hrs prj = .ok e) :
    (can_request_vacation e = true ↔ (t = "salaried" ∨ t = "hourly")) := by
  unfold createEmployee at hc
  split_ifs at hc <;> simp only [Except.ok.injEq] at hc <;> subst hc <;>
    simp_all [mkEmployee, can_request_vacation]

theorem can_request_vacation_spec_witness :
    createEmployee egPolicies "alice" "manager" "salaried" 5000 0 0 [] =
      .ok egSal ∧
    (can_request_vacation egSal = true ↔
      ("salaried" = "salaried" ∨ "salaried" = "hourly")) :=
  ⟨rfl,
   can_request_vacation_spec egPolicies "alice" "manager" "salaried" 5000 0 0 []
     egSal rfl⟩

/-- C10 (counterexample): the claim quantifies over every `days` with
`days ≤ vacation_days` and every payout flag, but the manager policy
checks the payout cap first: with the initial balance 25, a request of 11
days with `payout = true` satisfies `days ≤ vacation_days` yet is denied,
not granted. -/
theorem no_positivity_check_counterexample :
    (11 : Int) ≤ egSal.vacation_days ∧
    requestVacation .managerP egSal 11 true 0 =
      .error (.payoutCapExceeded, egSal) :=
  ⟨by decide, rfl⟩

/-- C10 (amended): neither the default nor the manager vacation policy
checks that `days` is positive: any `days ≤ vacation_days` — zero and
negative values included — is granted (for the manager policy, provided
the payout cap `payout ∧ days > 10` does not fire first), the balance
becomes `vacation_days - days` (so a negative `days` increases it), and
one vacation record carrying that day count is appended. -/
theorem no_positivity_check_spec (e : Employee) (days : Int) (payout : Bool)
    (now : Nat) (hd : days ≤ e.vacation_days) :
    requestVacation .defaultP e days payout now =
      .ok { e with
            vacation_days := e.vacation_days - days
            transactions := e.transactions ++
              [{ date := now, type_op := "vacation", amount := (days : ℚ),
                 description := "Standard vacation/payout" }] } ∧
    (¬(payout = true ∧ 10 < days) →
      requestVacation .managerP e days payout now =
        .ok { e with
              vacation_days := e.vacation_days - days
              transactions := e.transactions ++
                [{ date := now, type_op := "vacation", amount := (days : ℚ),
                   description := "Manager vacation/payout" }] }) := by
  constructor
  · simp [requestVacation, log_transaction, Int.not_lt.mpr hd]
  · intro hcap
    simp [requestVacation, log_transaction, hcap, Int.not_lt.mpr hd]

theorem no_positivity_check_spec_witness :
    (-5 : Int) ≤ egHour.vacation_days ∧
    requestVacation .defaultP egHour (-5) false 0 =
      .ok { egHour with
            vacation_days := 30
            transactions := [{ date := 0, type_op := "vacation",
                               amount := ((-5 : Int) : ℚ),
                               description := "Standard vacation/payout" }] } :=
  ⟨by decide, (no_positivity_check_spec egHour (-5) false 0 (by decide)).1⟩

/-- Each orchestrator-level vacation request keeps the balance
non-negative: a deduction happens only when the prior balance covers the
requested day count. -/
theorem applyRequest_vacation_days_nonneg (p : VacPolicy) (e : Employee)
    (r : Int × Bool × Nat) (h : 0 ≤ e.vacation_days) :
    0 ≤ (applyRequest p e r).vacation_days := by
  cases p with
  | internP => simpa [applyRequest, requestVacation] using h
  | freelancerP =>
      simpa [applyRequest, requestVacation, freelancerVacationRequest] using h
  | vpP =>
      unfold applyRequest requestVacation
      split_ifs <;> simpa [log_transaction] using h
  | managerP =>
      unfold applyRequest requestVacation
      split_ifs <;> simp_all [log_transaction]
  | defaultP =>
      unfold applyRequest requestVacation
      split_ifs <;> simp_all [log_transaction]

/-- C7: `vacation_days` starts at 25 at construction and stays
non-negative across any sequence of `request_vacation` calls, whichever
vacation policy is bound and whether each call is granted or denied. -/
theorem vacation_days_nonneg :
    (∀ ps n r t sal ra hrs prj e,
      createEmployee ps n r t sal ra hrs prj = .ok e →
      e.vacation_days = 25) ∧
    (∀ (p : VacPolicy) (reqs : List (Int × Bool × Nat)) (e : Employee),
      0 ≤ e.vacation_days →
      0 ≤ (reqs.foldl (applyRequest p) e).vacation_days) := by
  constructor
  · intro ps n r t sal ra hrs prj e hc
    unfold createEmployee at hc
    split_ifs at hc <;> simp only [Except.ok.injEq] at hc <;> subst hc <;> rfl
  · intro p reqs
    induction reqs with
    | nil => intro e h; simpa using h
    | cons rq rest ih =>
        intro e h
        simpa [List.foldl] using
          ih _ (applyRequest_vacation_days_nonneg p e rq h)

theorem vacation_days_nonneg_witness :
    egIntern.vacation_days = 25 ∧
    0 ≤ (([((30 : Int), true, (0 : Nat)), (5, false, 1),
           (-2, false, 2)]).foldl (applyRequest .defaultP) egHour).vacation_days :=
  ⟨vacation_days_nonneg.1 egPolicies "charlie" "x" "intern" 0 0 0 [] egIntern rfl,
   vacation_days_nonneg.2 .defaultP
     [(30, true, 0), (5, false, 1), (-2, false, 2)] egHour (by decide)⟩

/-- C5: for a well-formed employee of the policy's type,
`calculate_payment` never raises, appends exactly one payment record to
the employee's log before returning, and returns the per-type formula:
`salary * (1 + bonus_percent)` for salaried, `rate * hours` plus
`bonus_amount` exactly when `hours > bonus_threshold` for hourly, the sum
of project amounts for freelancers (0 when empty), and the constant 0 for
interns. -/
theorem calculate_payment_spec (e : Employee) (now : Nat) :
    (∀ bp salary, e.data = .salaried salary →
      calculatePayment (.salariedPay bp) e now =
        some (salary * (1 + bp),
              log_transaction e now "payment" (salary * (1 + bp))
                "Salaried + bonus")) ∧
    (∀ th ba rate hours, e.data = .hourly rate hours →
      calculatePayment (.hourlyPay th ba) e now =
        some (rate * (hours : ℚ) + (if th < hours then ba else 0),
              log_transaction e now "payment"
                (rate * (hours : ℚ) + (if th < hours then ba else 0))
                "Hourly + bonus if > threshold")) ∧
    (∀ projects, e.data = .freelancer projects →
      calculatePayment .freelancerPay e now =
        some ((projects.map Project.amount).sum,
              log_transaction e now "payment"
                ((projects.map Project.amount).sum)
                "Freelancer project payout")) ∧
    calculatePayment .internPay e now =
      some (0, log_transaction e now "payment" 0 "Interns not paid") := by
  refine ⟨?_, ?_, ?_, rfl⟩
  · intro bp salary hd
    have hb : salary + salary * bp = salary * (1 + bp) := by ring
    simp [calculatePayment, hd, hb]
  · intro th ba rate hours hd
    simp [calculatePayment, hd]
  · intro projects hd
    simp [calculatePayment, hd]

theorem calculate_payment_spec_witness :
    calculatePayment (.salariedPay (1/10)) egSal 0 =
      some ((5000 : ℚ) * (1 + 1/10),
            log_transaction egSal 0 "payment" ((5000 : ℚ) * (1 + 1/10))
              "Salaried + bonus") ∧
    calculatePayment (.hourlyPay 160 100) egHour 0 =
      some ((30 : ℚ) * ((170 : Int) : ℚ) +
              (if (160 : Int) < 170 then (100 : ℚ) else 0),
            log_transaction egHour 0 "payment"
              ((30 : ℚ) * ((170 : Int) : ℚ) +
                (if (160 : Int) < 170 then (100 : ℚ) else 0))
              "Hourly + bonus if > threshold") ∧
    calculatePayment (.hourlyPay 160 100) egHourB 0 =
      some ((30 : ℚ) * ((160 : Int) : ℚ) +
              (if (160 : Int) < 160 then (100 : ℚ) else 0),
            log_transaction egHourB 0 "payment"
              ((30 : ℚ) * ((160 : Int) : ℚ) +
                (if (160 : Int) < 160 then (100 : ℚ) else 0))
              "Hourly + bonus if > threshold") ∧
    calculatePayment .freelancerPay egFreeL 0 =
      some ((([{ name := "Website", amount := 1200 },
               { name := "App", amount := 1800 }] :
                List Project).map Project.amount).sum,
            log_transaction egFreeL 0 "payment"
              ((([{ name := "Website", amount := 1200 },
                  { name := "App", amount := 1800 }] :
                   List Project).map Project.amount).sum)
              "Freelancer project payout") ∧
    calculatePayment .internPay egIntern 0 =
      some (0, log_transaction egIntern 0 "payment" 0 "Interns not paid") :=
  ⟨(calculate_payment_spec egSal 0).1 (1/10) 5000 rfl,
   (calculate_payment_spec egHour 0).2.1 160 100 30 170 rfl,
   (calculate_payment_spec egHourB 0).2.1 160 100 30 160 rfl,
   (calculate_payment_spec egFreeL 0).2.2.1
     [{ name := "Website", amount := 1200 },
      { name := "App", amount := 1800 }] rfl,
   (calculate_payment_spec egIntern 0).2.2.2⟩

/-- A successful operation (payment or granted vacation request) appends
exactly one record to the employee's transaction log. -/
theorem runOp_transactions_length (e : Employee) (op : Op) (e2 : Employee)
    (h : runOp e op = some e2) :
    e2.transactions.length = e.transactions.length + 1 := by
  obtain ⟨nm, rl, vd, vp, pp, trs, dt⟩ := e
  cases op with
  | pay now =>
      cases pp <;> cases dt <;>
        simp_all [runOp, calculatePayment, log_transaction]
      all_goals (subst h; simp)
  | vac days payout now =>
      cases vp <;>
        simp only [runOp, requestVacation, freelancerVacationRequest] at h
      case managerP =>
        split_ifs at h
        all_goals simp_all [log_transaction]
        all_goals (subst h; simp)
      case vpP =>
        split_ifs at h
        all_goals simp_all [log_transaction]
        all_goals (subst h; simp)
      case internP => simp_all
      case freelancerP => simp_all
      case defaultP =>
        split_ifs at h
        all_goals simp_all [log_transaction]
        all_goals (subst h; simp)

/-- C8: rendering the transaction log produces the records ordered by
timestamp descending; records sharing an identical timestamp retain their
original append order (as a stable sort, rendering preserves, for every
date, the exact subsequence of records carrying that date); rendering is
a pure permutation of the log, which it leaves untouched; and after `N`
successful operations the log holds exactly `N` more records than before. -/
theorem render_log_spec :
    (∀ ts : List Transaction,
      (render ts).Pairwise (fun a b => b.date ≤ a.date)) ∧
    (∀ (ts : List Transaction) (d : Nat),
      (render ts).filter (fun t => decide (t.date = d)) =
        ts.filter (fun t => decide (t.date = d))) ∧
    (∀ ts : List Transaction, (render ts).Perm ts) ∧
    (∀ (e : Employee) (ops : List Op) (e2 : Employee),
      runOps e ops = some e2 →
      e2.transactions.length = e.transactions.length + ops.length) := by
  have htrans : ∀ a b c : Transaction,
      decide (b.date ≤ a.date) = true → decide (c.date ≤ b.date) = true →
      decide (c.date ≤ a.date) = true := by
    intro a b c hab hbc
    simp only [decide_eq_true_eq] at hab hbc ⊢
    omega
  have htotal : ∀ a b : Transaction,
      (decide (b.date ≤ a.date) || decide (a.date ≤ b.date)) = true := by
    intro a b
    simp [Nat.le_total]
  refine ⟨?_, ?_, ?_, ?_⟩
  · intro ts
    unfold render
    exact (List.sorted_mergeSort htrans htotal ts).imp
      (fun hab => by simpa using hab)
  · intro ts d
    have hpair : (ts.filter (fun t => decide (t.date = d))).Pairwise
        (fun a b => decide (b.date ≤ a.date) = true) := by
      apply List.pairwise_of_forall_mem_list
      intro a ha b hb
      have ha2 := List.of_mem_filter ha
      have hb2 := List.of_mem_filter hb
      simp only [decide_eq_true_eq] at ha2 hb2
      simp [ha2, hb2]
    have hsub : List.Sublist (ts.filter (fun t => decide (t.date = d)))
        (render ts) :=
      List.sublist_mergeSort htrans htotal hpair (List.filter_sublist ts)
    have h2 := hsub.filter (fun t => decide (t.date = d))
    rw [List.filter_filter] at h2
    simp only [Bool.and_self] at h2
    have hlen : (ts.filter (fun t => decide (t.date = d))).length =
        ((render ts).filter (fun t => decide (t.date = d))).length :=
      (((List.mergeSort_perm ts
          (fun a b => decide (b.date ≤ a.date))).filter
            (fun t => decide (t.date = d))).length_eq).symm
    exact (h2.eq_of_length hlen).symm
  · intro ts
    unfold render
    exact List.mergeSort_perm ts _
  · intro e ops
    induction ops generalizing e with
    | nil =>
        intro e2 h
        simp only [runOps, Option.some.injEq] at h
        subst h
        simp
    | cons op rest ih =>
        intro e2 h
        unfold runOps at h
        cases hr : runOp e op with
        | none => rw [hr] at h; simp at h
        | some e1 =>
            rw [hr] at h
            have h1 := runOp_transactions_length e op e1 hr
            have h2 := ih e1 e2 h
            simp only [List.length_cons]
            omega

/-- State of `egHour` after two granted default-policy vacation
requests. -/
def egHourRun : Employee :=
  { egHour with
    vacation_days := 20
    transactions :=
      [{ date := 5, type_op := "vacation", amount := ((3 : Int) : ℚ),
         description := "Standard vacation/payout" },
       { date := 7, type_op := "vacation", amount := ((2 : Int) : ℚ),
         description := "Standard vacation/payout" }] }

theorem render_log_spec_witness :
    runOps egHour [.vac 3 false 5, .vac 2 true 7] = some egHourRun ∧
    egHourRun.transactions.length = egHour.transactions.length + 2 :=
  ⟨rfl,
   render_log_spec.2.2.2 egHour [.vac 3 false 5, .vac 2 true 7] egHourRun rfl⟩

end PatronesGrupal
